import Mathlib

/-!
Shallow embedding of the HTTP/2 client transport in `transport.go`
(package `http2`): connection pool admission, the reader task's frame
demultiplexing loop, header encoding and fragmentation, the retry loop of
`RoundTrip`, the sticky-error buffered writer stack, and the DATA body
writer.  Each definition mirrors the corresponding Go function; theorems
at the end of the file settle the specification claims.
-/

namespace Http2

/-- Errors observable in the transport model.  `ioErr n` stands for an
arbitrary socket-level I/O error (distinct errors carry distinct `n`);
the other constructors are the sentinel errors of the Go source:
`io.EOF`, `io.ErrUnexpectedEOF`, `ConnectionError(code)`,
`errClientConnClosed`, and the "reach max retry request times=3" error. -/
inductive Err
  | eof
  | unexpectedEOF
  | connectionError (code : Nat)
  | clientConnClosed
  | maxRetry
  | ioErr (n : Nat)
  deriving DecidableEq

/-- `ErrCodeProtocol` of the frame codec. -/
def errCodeProtocol : Nat := 1

/-- The mutable per-connection state that `canTakeNewRequest`,
`closeIfIdle` and pool selection read (fields of Go's `clientConn`):
the `closed` flag, the recorded GOAWAY frame (modelled by its error
code), the keys of the `streams` map, `nextStreamID`, and the two peer
settings involved in admission. -/
structure ClientConn where
  closed : Bool
  goAway : Option Nat
  streams : List Nat
  nextStreamID : Nat
  maxFrameSize : Nat
  maxConcurrentStreams : Nat
  deriving DecidableEq

/-- Go `clientConn.canTakeNewRequest`: no GOAWAY recorded, the projected
stream count strictly below `maxConcurrentStreams`, and
`nextStreamID < 2147483647`.  The Go comparison is between `int64`
values obtained from a small length and a `uint32`, so plain `Nat`
comparison is exact. -/
def canTakeNewRequest (cc : ClientConn) : Bool :=
  cc.goAway.isNone
    && decide (cc.streams.length + 1 < cc.maxConcurrentStreams)
    && decide (cc.nextStreamID < 2147483647)

/-- Go `clientConn.closeIfIdle`: if the stream registry is non-empty do
nothing, otherwise set the `closed` flag (and close the socket, which
the admission state does not track). -/
def closeIfIdle (cc : ClientConn) : ClientConn :=
  if cc.streams.length > 0 then cc else { cc with closed := true }

/-- Go `Transport.getClientConn`, restricted to the cached-connection
scan for one authority key: return the first connection in the key's
sequence that passes `canTakeNewRequest` (if none does, the Go code goes
on to dial a fresh connection). -/
def getClientConn (conns : List ClientConn) : Option ClientConn :=
  conns.find? canTakeNewRequest

/-- A fresh connection as built by `newClientConn` before any traffic:
not closed, no GOAWAY, empty stream registry, `nextStreamID = 1`, and
the spec-default settings `maxFrameSize = 16384`,
`maxConcurrentStreams = 1000`. -/
def freshConn : ClientConn :=
  { closed := false
    goAway := none
    streams := []
    nextStreamID := 1
    maxFrameSize := 16384
    maxConcurrentStreams := 1000 }

/-- The frames the reader loop distinguishes, with the header fields the
Go code reads: `Header().StreamID`, the header-block fragment, the
END_STREAM and END_HEADERS flags, and the GOAWAY error code. -/
inductive Frame
  | headers (sid : Nat) (frag : List Nat) (endStream endHeaders : Bool)
  | continuation (sid : Nat) (frag : List Nat) (endHeaders : Bool)
  | data (sid : Nat) (payload : List Nat) (endStream : Bool)
  | goAway (sid : Nat) (errCode lastStreamID : Nat)
  | settings (sid : Nat)
  | windowUpdate (sid : Nat) (increment : Nat)
  | rstStream (sid : Nat) (errCode : Nat)
  deriving DecidableEq

/-- `f.Header().StreamID`. -/
def Frame.sid : Frame → Nat
  | .headers s _ _ _ => s
  | .continuation s _ _ => s
  | .data s _ _ => s
  | .goAway s _ _ => s
  | .settings s => s
  | .windowUpdate s _ => s
  | .rstStream s _ => s

/-- The Go type switch `_, isContinue := f.(*ContinuationFrame)`. -/
def Frame.isContinuation : Frame → Bool
  | .continuation _ _ _ => true
  | _ => false

/-- `ff.StreamEnded()` for the frame types implementing `streamEnder`
(HEADERS and DATA carry END_STREAM); other frames do not end a stream. -/
def Frame.streamEnded : Frame → Bool
  | .headers _ _ es _ => es
  | .data _ _ es => es
  | _ => false

/-- `he.HeadersEnded()` for the frame types implementing `headersEnder`
(HEADERS and CONTINUATION); `none` for frames that are not header-block
carriers, for which the reader skips the `continueStreamID` update. -/
def Frame.headersEnder : Frame → Option Bool
  | .headers _ _ _ eh => some eh
  | .continuation _ _ eh => some eh
  | _ => none

/-- The header-block fragment or DATA payload carried by a frame
(`HeaderBlockFragment()` / `Data()`); used to state fragmentation
claims. -/
def Frame.frag : Frame → List Nat
  | .headers _ fr _ _ => fr
  | .continuation _ fr _ => fr
  | .data _ p _ => p
  | _ => []

/-- The END_HEADERS flag of a HEADERS or CONTINUATION frame. -/
def Frame.endHeadersFlag : Frame → Bool
  | .headers _ _ _ eh => eh
  | .continuation _ _ eh => eh
  | _ => false

/-- The reader task's state: `continueStreamID`, the keys of the
connection's `streams` map (the reader reads and prunes it through
`streamByID`), the keys of the loop-local `activeRes` map, and the
connection's recorded GOAWAY. -/
structure RState where
  continueStreamID : Nat
  streams : List Nat
  activeRes : List Nat
  goAway : Option Nat
  deriving DecidableEq

/-- Observable side effects of one reader-loop iteration, in program
order: HPACK decoder writes, creating a fresh pending response and body
pipe, piping DATA into a stream's pipe, closing a pipe writer (plainly
or with an error), delivering a response on a stream's result channel,
removing the connection from the transport pool, and recording a
GOAWAY. -/
inductive REvent
  | hdecWrite (frag : List Nat)
  | newPendingRes
  | pipeWrite (sid : Nat) (payload : List Nat)
  | pwClose (sid : Nat)
  | pwCloseWithError (sid : Nat) (e : Err)
  | deliverRes (sid : Nat)
  | removeFromPool
  | goAwayRecorded (errCode : Nat)
  deriving DecidableEq

/-- Outcome of one iteration of the reader loop body: continue with a
new state and emitted events, or terminate with a reader error. -/
inductive RStepOut
  | next (s : RState) (evs : List REvent)
  | term (e : Err)
  deriving DecidableEq

/-- One iteration of `clientConn.readLoop` on a successfully read frame,
mirroring the Go statement order: the CONTINUATION contiguity checks,
the even-stream-id drop, `streamByID` (removing the stream when the
frame ends it), the unknown-stream drop, the frame-kind dispatch, the
`continueStreamID` update, the END_STREAM pipe close and `activeRes`
removal, and the END_HEADERS response delivery. -/
def readStep (s : RState) (f : Frame) : RStepOut :=
  let sid := f.sid
  if f.isContinuation = true ∧ sid ≠ s.continueStreamID then
    .term (.connectionError errCodeProtocol)
  else if f.isContinuation = false ∧ s.continueStreamID ≠ 0 then
    .term (.connectionError errCodeProtocol)
  else if sid % 2 = 0 then
    .next s []
  else
    let streamEnded := f.streamEnded
    let found := s.streams.contains sid
    let streams1 := if streamEnded then s.streams.filter (fun x => x ≠ sid) else s.streams
    if found = false then
      .next { s with streams := streams1 } []
    else
      let dispatched :=
        match f with
        | .headers _ fr _ _ => (s.goAway, [REvent.newPendingRes, REvent.hdecWrite fr])
        | .continuation _ fr _ => (s.goAway, [REvent.hdecWrite fr])
        | .data _ payload _ => (s.goAway, [REvent.pipeWrite sid payload])
        | .goAway _ code _ => (some code, [REvent.removeFromPool, REvent.goAwayRecorded code])
        | _ => (s.goAway, [])
      let cidHe :=
        match f.headersEnder with
        | some he => (if he then 0 else sid, he)
        | none => (s.continueStreamID, false)
      let ended :=
        if streamEnded = true then
          (s.activeRes.filter (fun x => x ≠ sid), [REvent.pwClose sid])
        else (s.activeRes, [])
      let delivered :=
        if cidHe.2 = true then
          ((if ended.1.contains sid then ended.1 else ended.1 ++ [sid]), [REvent.deliverRes sid])
        else (ended.1, [])
      .next { continueStreamID := cidHe.1
              streams := streams1
              activeRes := delivered.1
              goAway := dispatched.1 }
        (dispatched.2 ++ ended.2 ++ delivered.2)

/-- The deferred error mapping of `readLoop`: a clean `io.EOF` from the
peer is reported to in-flight streams as `io.ErrUnexpectedEOF`. -/
def mapReaderErr (e : Err) : Err :=
  if e = Err.eof then Err.unexpectedEOF else e

/-- The deferred teardown of `readLoop`, in execution order of the
deferred functions (last registered runs first): close the pipe-writer
end of every stream still in `activeRes` with the (mapped) reader error,
then remove the connection from the transport pool. -/
def cleanup (s : RState) (e : Err) : List REvent :=
  s.activeRes.map (fun sid => REvent.pwCloseWithError sid (mapReaderErr e))
    ++ [REvent.removeFromPool]

/-- Result of running the reader loop on a list of frame-read results:
either the loop is still running (input exhausted), or it terminated
with a reader error; either way the emitted events are collected. -/
inductive RunOut
  | running (s : RState) (evs : List REvent)
  | terminated (e : Err) (evs : List REvent)
  deriving DecidableEq

/-- `clientConn.readLoop` over a list of `ReadFrame` results: a read
error terminates the loop (running the deferred teardown), otherwise
the loop body runs and may itself terminate. -/
def runReader (s : RState) : List (Except Err Frame) → RunOut
  | [] => .running s []
  | .error e :: _ => .terminated e (cleanup s e)
  | .ok f :: rest =>
    match readStep s f with
    | .term e => .terminated e (cleanup s e)
    | .next s' evs =>
      match runReader s' rest with
      | .running s'' evs' => .running s'' (evs ++ evs')
      | .terminated e evs' => .terminated e (evs ++ evs')

/-- The request fields read by `RoundTrip`, `do` and `encodeHeaders`:
method, explicit `Host`, URL host and scheme, raw request-URI,
`ContentLength`, and the header map as an association list (one entry
per key, values in their original order; the list order models Go's
unspecified map iteration order). -/
structure Request where
  method : String
  host : String
  urlHost : String
  urlScheme : String
  requestURI : String
  contentLength : Int
  header : List (String × List String)

/-- `hasBody := req.ContentLength > 0 || req.Method == "CONNECT"` from
`clientConn.do`. -/
def hasBodyOf (req : Request) : Bool :=
  decide (req.contentLength > 0) || decide (req.method = "CONNECT")

/-- Go `clientConn.writeHeader`: append one HPACK field to the encoder's
scratch buffer (the buffer is modelled as the list of emitted fields). -/
def writeHeader (buf : List (String × String)) (name value : String) :
    List (String × String) :=
  buf ++ [(name, value)]

/-- Go `clientConn.encodeHeaders`: reset the scratch buffer, emit the
four pseudo-headers `:authority` (explicit host, else URL host),
`:method`, `:path` (raw request-URI, else "/"), `:scheme`, then walk the
header map, skipping keys that lowercase to "host" and emitting every
value of the remaining keys under the lowercased key. -/
def encodeHeaders (req : Request) : List (String × String) :=
  let host := if req.host = "" then req.urlHost else req.host
  let path := if req.requestURI = "" then "/" else req.requestURI
  let buf : List (String × String) := []
  let buf := writeHeader buf ":authority" host
  let buf := writeHeader buf ":method" req.method
  let buf := writeHeader buf ":path" path
  let buf := writeHeader buf ":scheme" req.urlScheme
  req.header.foldl
    (fun b kv =>
      if kv.1.toLower = "host" then b
      else kv.2.foldl (fun b2 v => writeHeader b2 kv.1.toLower v) b)
    buf

/-- The header-block fragmentation loop of `clientConn.do`: while bytes
remain, cut a chunk of at most `maxFrameSize` bytes, set END_HEADERS iff
nothing remains after the chunk, and write the first chunk as HEADERS
(with `END_STREAM = !hasBody`) and every later chunk as CONTINUATION.
The Go loop diverges when `maxFrameSize = 0`; the model returns `[]`
then (all claims assume a positive frame size). -/
def writeHeaderFrames (sid mfs : Nat) (hasBody : Bool) :
    Nat → Bool → List Nat → List Frame
  | _, _, [] => []
  | 0, _, _ :: _ => []
  | fuel + 1, first, h :: t =>
    (if first then
      Frame.headers sid ((h :: t).take mfs) (!hasBody)
        (decide ((h :: t).drop mfs = []))
     else
      Frame.continuation sid ((h :: t).take mfs)
        (decide ((h :: t).drop mfs = [])))
    :: writeHeaderFrames sid mfs hasBody fuel false ((h :: t).drop mfs)

/-- The HEADERS[+CONTINUATION] frames `clientConn.do` writes for an
encoded header block: the loop starts with `first = true`, and when
`0 < maxFrameSize` every iteration consumes at least one byte, so
`hdrs.length` iterations always suffice (the Go loop diverges when
`maxFrameSize = 0`; all claims assume a positive frame size). -/
def doWriteHeaders (sid mfs : Nat) (hasBody : Bool) (hdrs : List Nat) :
    List Frame :=
  writeHeaderFrames sid mfs hasBody hdrs.length true hdrs

/-- Go `shouldRetryRequest`: only `errClientConnClosed` is retryable. -/
def shouldRetryRequest (e : Err) : Bool :=
  decide (e = Err.clientConnClosed)

/-- Outcome of one attempt of the `RoundTrip` loop body: the connection
selection (`getClientConn`) failed, the execution (`cc.roundTrip`)
failed, or a response was obtained. -/
inductive AttemptOutcome
  | connErr (e : Err)
  | tripErr (e : Err)
  | ok (res : Nat)

/-- The `for i := 0; i < 3; i++` retry loop of `Transport.RoundTrip`,
at iteration `i` with `rem` iterations remaining (`rem = 3 - i`): a
selection error returns immediately; an execution error retries iff
`shouldRetryRequest` (the Go guard `i < 3` is always true inside the
loop); exhausting the loop returns the max-retry error. -/
def roundTripLoop (a : Nat → AttemptOutcome) : Nat → Nat → Except Err Nat
  | _, 0 => .error Err.maxRetry
  | i, rem + 1 =>
    match a i with
    | .connErr e => .error e
    | .ok r => .ok r
    | .tripErr e =>
      if shouldRetryRequest e then roundTripLoop a (i + 1) rem else .error e

/-- `Transport.RoundTrip` (after scheme and host/port resolution),
abstracted over the outcome of each attempt: at most
`maxRetryRequest = 3` iterations starting at `i = 0`. -/
def RoundTrip (a : Nat → AttemptOutcome) : Except Err Nat :=
  roundTripLoop a 0 3

/-- The entry gate of `clientConn.do` together with its result paths:
under the connection mutex, a connection whose `closed` flag is set
yields `errClientConnClosed`; otherwise the request either fails with
the captured sticky write error (always a write-path error `ioErr`)
or receives the response delivered on the stream's result channel
(whose error slot the reader always leaves nil). -/
def ccDo (closed : Bool) (werr : Option Nat) (res : Nat) : Except Err Nat :=
  if closed then .error Err.clientConnClosed
  else
    match werr with
    | some e => .error (Err.ioErr e)
    | none => .ok res

/-- `bufio.NewWriter`'s default buffer size. -/
def bufSize : Nat := 4096

/-- The write-side state of one connection: `werr` is `cc.werr` (the
target of the sticky writer's error pointer), `bwErr`/`bwBuf` are the
latched error and buffer of the `bufio.Writer` wrapped around the sticky
writer, `socket` is the byte stream that has reached the TLS socket, and
`oracle` is the scripted outcome of each socket write (`none` = the
write succeeds in full; `some e` = it fails with `e`; an exhausted
script means further writes succeed). -/
structure ConnW where
  werr : Option Err
  bwErr : Option Err
  bwBuf : List Nat
  socket : List Nat
  oracle : List (Option Err)
  deriving DecidableEq

/-- Go `stickyErrWriter.Write`: if the latched error is set, fail with
it immediately without touching the socket; otherwise perform the socket
write and store its (possibly nil) error. -/
def stickyWrite (s : ConnW) (p : List Nat) : (Nat × Option Err) × ConnW :=
  match s.werr with
  | some e => ((0, some e), s)
  | none =>
    match s.oracle with
    | [] => ((p.length, none), { s with socket := s.socket ++ p })
    | none :: rest =>
      ((p.length, none), { s with socket := s.socket ++ p, oracle := rest })
    | some e :: rest => ((0, some e), { s with werr := some e, oracle := rest })

/-- `bufio.Writer.Flush` over the sticky writer: a latched bufio error
fails immediately; an empty buffer is a no-op; otherwise the buffered
bytes are written through the sticky writer, latching any error. -/
def bwFlush (s : ConnW) : Option Err × ConnW :=
  match s.bwErr with
  | some e => (some e, s)
  | none =>
    if s.bwBuf = [] then (none, s)
    else
      match stickyWrite s s.bwBuf with
      | ((_, some e), s') => (some e, { s' with bwErr := some e })
      | ((_, none), s') => (none, { s' with bwBuf := [] })

/-- The write-enlarging loop of `bufio.Writer.Write`: while the chunk
exceeds the available buffer space and no error is latched, either write
it straight through (empty buffer) or fill the buffer and flush.  `nn`
accumulates the reported byte count.  The fuel is an upper bound on the
number of loop iterations (each one either consumes input bytes or
empties the buffer), generous enough for every execution. -/
def bwWriteLoop (fuel : Nat) (s : ConnW) (p : List Nat) (nn : Nat) :
    (Nat × Option Err) × ConnW :=
  match fuel with
  | 0 =>
    (match s.bwErr with
     | some e => ((nn, some e), s)
     | none => ((nn + p.length, none), { s with bwBuf := s.bwBuf ++ p }))
  | fuel + 1 =>
    if p.length > bufSize - s.bwBuf.length ∧ s.bwErr = none then
      if s.bwBuf.length = 0 then
        let r := stickyWrite s p
        bwWriteLoop fuel { r.2 with bwErr := r.1.2 } (p.drop r.1.1) (nn + r.1.1)
      else
        let avail := bufSize - s.bwBuf.length
        let n := min avail p.length
        let s2 := (bwFlush { s with bwBuf := s.bwBuf ++ p.take n }).2
        bwWriteLoop fuel s2 (p.drop n) (nn + n)
    else
      match s.bwErr with
      | some e => ((nn, some e), s)
      | none => ((nn + p.length, none), { s with bwBuf := s.bwBuf ++ p })

/-- `bufio.Writer.Write` over the sticky writer. -/
def bwWrite (s : ConnW) (p : List Nat) : (Nat × Option Err) × ConnW :=
  bwWriteLoop (2 * p.length + 2) s p 0

/-- Modelled from the spec: the frame codec (not under src/) serializes
a typed frame as a fixed header carrying the payload length, frame type,
flags and stream id, followed by the payload, and writes the result to
the buffered writer.  The header octets are abstracted as the list
`[length, type, flags, streamID]`. -/
def frameHeaderBytes (len ty flags sid : Nat) : List Nat :=
  [len, ty, flags, sid]

/-- Modelled from the spec: the bytes of `Framer.WriteData` (frame type
0; the END_STREAM flag is bit 0 of the flags octet). -/
def dataFrameBytes (sid : Nat) (endStream : Bool) (p : List Nat) : List Nat :=
  frameHeaderBytes p.length 0 (if endStream then 1 else 0) sid ++ p

/-- Modelled from the spec: the bytes of `Framer.WriteRSTStream` (frame
type 3, a 4-octet error code payload). -/
def rstStreamBytes (sid code : Nat) : List Nat :=
  frameHeaderBytes 4 3 0 sid ++ [code]

/-- Modelled from the spec: a typed frame write hands the serialized
bytes to the buffered writer and reports its error. -/
def framerWrite (s : ConnW) (bytes : List Nat) : Option Err × ConnW :=
  match bwWrite s bytes with
  | ((_, err), s') => (err, s')

/-- The write operations performed on one connection after setup:
a raw buffered write (header-block emission in `do`), an explicit
flush, `dataFrameWriter.Write` (DATA plus flush-if-END_STREAM),
`clientDataConn.Write` (DATA plus unconditional flush), and
`clientDataConn.Close` (RST_STREAM, assigning its error to `cc.werr`
unconditionally). -/
inductive WOp
  | rawWrite (p : List Nat)
  | flushOp
  | dataWrite (sid : Nat) (endStream : Bool) (p : List Nat)
  | tunnelWrite (sid : Nat) (p : List Nat)
  | tunnelClose (sid : Nat)

/-- One connection write operation, returning the error it reports to
its caller.  `dataWrite`/`tunnelWrite` latch a failure into `cc.werr`
themselves (as `dataFrameWriter.Write` and `clientDataConn.Write` do);
`tunnelClose` assigns the RST_STREAM write error to `cc.werr`
unconditionally (as `clientDataConn.Close` does). -/
def opStep (s : ConnW) (op : WOp) : Option Err × ConnW :=
  match op with
  | .rawWrite p =>
    match bwWrite s p with
    | ((_, err), s') => (err, s')
  | .flushOp => bwFlush s
  | .dataWrite sid es p =>
    match framerWrite s (dataFrameBytes sid es p) with
    | (some e, s1) => (some e, { s1 with werr := some e })
    | (none, s1) =>
      if es then
        match bwFlush s1 with
        | (some e, s2) => (some e, { s2 with werr := some e })
        | (none, s2) => (none, s2)
      else (none, s1)
  | .tunnelWrite sid p =>
    match framerWrite s (dataFrameBytes sid false p) with
    | (some e, s1) => (some e, { s1 with werr := some e })
    | (none, s1) =>
      match bwFlush s1 with
      | (some e, s2) => (some e, { s2 with werr := some e })
      | (none, s2) => (none, s2)
  | .tunnelClose sid =>
    match framerWrite s (rstStreamBytes sid 5) with
    | (err, s1) => (err, { s1 with werr := err })

/-- A sequence of connection write operations. -/
def runOps (s : ConnW) : List WOp → ConnW
  | [] => s
  | op :: ops => runOps (opStep s op).2 ops

/-- The well-formedness invariant of the connection writer stack: a
sticky error in `cc.werr` is always also latched in the bufio writer
(every assignment into `cc.werr` comes from a write that bottomed out in
the sticky writer through the bufio layer, which latches the same
error). -/
def WInv (s : ConnW) : Prop :=
  s.werr ≠ none → s.bwErr = s.werr

instance (s : ConnW) : Decidable (WInv s) := by
  unfold WInv; infer_instance

/-- `dataFrameWriter.Write`: compute END_STREAM as
`len(p) >= totalSize`, write one DATA frame, flush iff END_STREAM, and
decrement the remaining-bytes counter; a write or flush failure is
latched into `cc.werr` and leaves the counter untouched. -/
def dataFrameWriterWrite (s : ConnW) (totalSize : Int) (sid : Nat)
    (p : List Nat) : (Nat × Option Err) × ConnW × Int :=
  let endStream := decide ((p.length : Int) ≥ totalSize)
  match framerWrite s (dataFrameBytes sid endStream p) with
  | (some e, s1) => ((0, some e), { s1 with werr := some e }, totalSize)
  | (none, s1) =>
    if endStream then
      match bwFlush s1 with
      | (some e, s2) => ((0, some e), { s2 with werr := some e }, totalSize)
      | (none, s2) => ((p.length, none), s2, totalSize - p.length)
    else ((p.length, none), s1, totalSize - p.length)

/-! ## Theorems -/

/-- Claim C2 (counterexample): the claimed characterization of
`canTakeNewRequest` with the bound `nextStreamID < 2^31` fails: a
connection with `nextStreamID = 2147483647 = 2^31 - 1` satisfies no
recorded GOAWAY, `len(streams) + 1 < maxConcurrentStreams` and
`nextStreamID < 2^31`, yet `canTakeNewRequest` returns `false` (the
code compares against `2147483647`, not `2^31`). -/
theorem canTakeNewRequest_pow31_cex :
    ¬ (canTakeNewRequest { freshConn with nextStreamID := 2147483647 } = true ↔
        ({ freshConn with nextStreamID := 2147483647 } : ClientConn).goAway = none ∧
        ({ freshConn with nextStreamID := 2147483647 } : ClientConn).streams.length + 1
            < ({ freshConn with nextStreamID := 2147483647 } : ClientConn).maxConcurrentStreams ∧
        ({ freshConn with nextStreamID := 2147483647 } : ClientConn).nextStreamID < 2 ^ 31) := by
  decide

/-- Claim C2 (amended): `canTakeNewRequest` returns true iff no GOAWAY
has been recorded, `len(streams) + 1 < maxConcurrentStreams`, and
`nextStreamID < 2147483647 = 2^31 - 1` (the code's literal bound);
consequently a connection with `nextStreamID ≥ 2^31 - 1` cannot take
new requests. -/
theorem canTakeNewRequest_iff (cc : ClientConn) :
    canTakeNewRequest cc = true ↔
      cc.goAway = none ∧
      cc.streams.length + 1 < cc.maxConcurrentStreams ∧
      cc.nextStreamID < 2147483647 := by
  simp [canTakeNewRequest, Option.isNone_iff_eq_none, and_assoc]

/-- Claim C3 (counterexample): pool selection can return a connection
whose `closed` flag is set.  `closeIfIdle` on an idle fresh connection
sets `closed` without removing the connection from the pool (removal
only happens when the reader task exits), and `canTakeNewRequest` never
consults `closed`, so `getClientConn` still selects it. -/
theorem getClientConn_closed_cex :
    getClientConn [closeIfIdle freshConn] = some (closeIfIdle freshConn) ∧
    (closeIfIdle freshConn).closed = true := by
  decide

/-- Claim C3 (amended): pool selection returns only connections that
pass `canTakeNewRequest`; in particular a selected connection never has
a recorded GOAWAY.  It may however have its `closed` flag set — that
race is handled by the `conn-closed` retry in `RoundTrip`. -/
theorem getClientConn_canTake (conns : List ClientConn) (cc : ClientConn)
    (h : getClientConn conns = some cc) :
    canTakeNewRequest cc = true ∧ cc.goAway = none := by
  have hfind := List.find?_some h
  refine ⟨hfind, ?_⟩
  simp only [canTakeNewRequest, Bool.and_eq_true, Option.isNone_iff_eq_none] at hfind
  exact hfind.1.1

/-- Witness for `getClientConn_canTake` at the singleton pool holding a
fresh connection. -/
theorem getClientConn_canTake_witness :
    canTakeNewRequest freshConn = true ∧ freshConn.goAway = none :=
  getClientConn_canTake [freshConn] freshConn (by decide)

/-- Claim C1 (code evaluated at the failing input): a GOAWAY frame
carries stream id 0, which is even, and the reader loop's
even-stream-id check precedes the frame-kind dispatch; so in any reader
state with no header block in progress the GOAWAY frame is dropped
unchanged — the connection is not removed from the pool, no GOAWAY is
recorded, and `canTakeNewRequest` is unaffected — contrary to the
claimed (and clearly intended, but unreachable) `GoAwayFrame` dispatch
case. -/
theorem readLoop_goAway_dropped (s : RState) (code last : Nat)
    (h : s.continueStreamID = 0) :
    readStep s (.goAway 0 code last) = .next s [] := by
  simp [readStep, Frame.isContinuation, Frame.sid, h]

/-- Witness for `readLoop_goAway_dropped`: a concrete reader state with
an in-flight stream receiving GOAWAY with error code 2. -/
theorem readLoop_goAway_dropped_witness :
    readStep ⟨0, [1], [1], none⟩ (.goAway 0 2 0) = .next ⟨0, [1], [1], none⟩ [] :=
  readLoop_goAway_dropped ⟨0, [1], [1], none⟩ 2 0 rfl

/-- Claim C9 (counterexample): an even-stream-id frame is not always
ignored.  A CONTINUATION on stream 2 while `continueStreamID = 0` hits
the contiguity check before the even-stream-id check and terminates the
reader with a connection-level protocol error. -/
theorem readLoop_even_cex :
    Frame.sid (.continuation 2 [9] true) % 2 = 0 ∧
    readStep ⟨0, [1], [], none⟩ (.continuation 2 [9] true)
      = .term (.connectionError errCodeProtocol) ∧
    readStep ⟨0, [1], [], none⟩ (.continuation 2 [9] true)
      ≠ .next ⟨0, [1], [], none⟩ [] := by
  decide

/-- Claim C9 (amended): an even-stream-id frame that passes the
HEADERS/CONTINUATION contiguity check — i.e. it is not a CONTINUATION
and no header block is in progress (`continueStreamID = 0`) — is
dropped and the loop continues with the state unchanged; an even
CONTINUATION, or any even frame arriving mid-header-block, instead
terminates the reader with a protocol error. -/
theorem readLoop_even_ignored (s : RState) (f : Frame)
    (heven : f.sid % 2 = 0) (hnc : f.isContinuation = false)
    (hcid : s.continueStreamID = 0) :
    readStep s f = .next s [] := by
  simp [readStep, hnc, hcid, heven]

/-- Witness for `readLoop_even_ignored`: a DATA frame on stream 2 in a
quiescent reader state is dropped. -/
theorem readLoop_even_ignored_witness :
    readStep ⟨0, [1], [], none⟩ (.data 2 [9] false) = .next ⟨0, [1], [], none⟩ [] :=
  readLoop_even_ignored ⟨0, [1], [], none⟩ (.data 2 [9] false) rfl rfl rfl

/-- Claim C4: a CONTINUATION whose stream id differs from
`continueStreamID`, or any non-CONTINUATION frame while
`continueStreamID ≠ 0`, terminates the reader with a connection-level
protocol error; a frame-read error terminates the reader with that
error; and on any termination the deferred teardown closes the
pipe-writer end of every stream still in `activeRes` with the reader
error (a clean EOF mapped to unexpected EOF) strictly before the
connection is removed from the pool. -/
theorem readLoop_contiguity_cleanup :
    (∀ (s : RState) (f : Frame) (rest : List (Except Err Frame)),
        (f.isContinuation = true ∧ f.sid ≠ s.continueStreamID) ∨
          (f.isContinuation = false ∧ s.continueStreamID ≠ 0) →
        runReader s (.ok f :: rest)
          = .terminated (.connectionError errCodeProtocol)
              (cleanup s (.connectionError errCodeProtocol))) ∧
    (∀ (s : RState) (e : Err) (rest : List (Except Err Frame)),
        runReader s (.error e :: rest) = .terminated e (cleanup s e)) ∧
    (∀ (s : RState) (e : Err),
        (cleanup s e).getLast? = some REvent.removeFromPool ∧
        ∀ sid ∈ s.activeRes,
          REvent.pwCloseWithError sid (if e = Err.eof then Err.unexpectedEOF else e)
            ∈ (cleanup s e).dropLast) := by
  refine ⟨?_, ?_, ?_⟩
  · intro s f rest h
    have hstep : readStep s f = .term (.connectionError errCodeProtocol) := by
      rcases h with ⟨hc, hne⟩ | ⟨hc, hne⟩
      · simp [readStep, hc, hne]
      · simp [readStep, hc, hne]
    simp [runReader, hstep]
  · intro s e rest
    simp [runReader]
  · intro s e
    constructor
    · simp [cleanup]
    · intro sid hsid
      simp only [cleanup, List.dropLast_concat, mapReaderErr]
      exact List.mem_map_of_mem _ hsid

/-- Witness for `readLoop_contiguity_cleanup`: a CONTINUATION on stream
5 while `continueStreamID = 0` terminates a reader with two in-flight
streams, and the teardown closes both pipes before the pool removal. -/
theorem readLoop_contiguity_cleanup_witness :
    runReader ⟨0, [1], [1, 3], none⟩ [Except.ok (Frame.continuation 5 [7] true)]
      = .terminated (.connectionError errCodeProtocol)
          (cleanup ⟨0, [1], [1, 3], none⟩ (.connectionError errCodeProtocol)) :=
  readLoop_contiguity_cleanup.1 ⟨0, [1], [1, 3], none⟩ (.continuation 5 [7] true) []
    (Or.inl ⟨rfl, by decide⟩)

theorem roundTripLoop_congr (a a' : Nat → AttemptOutcome) :
    ∀ (rem i : Nat), (∀ j, i ≤ j → j < i + rem → a j = a' j) →
      roundTripLoop a i rem = roundTripLoop a' i rem := by
  intro rem
  induction rem with
  | zero => intro i h; rfl
  | succ n ih =>
    intro i h
    have hi : a i = a' i := h i le_rfl (by omega)
    simp only [roundTripLoop, hi]
    cases a' i with
    | connErr e => rfl
    | ok r => rfl
    | tripErr e =>
      by_cases hr : shouldRetryRequest e = true
      · simp only [hr, if_true]
        exact ih (i + 1) (fun j hj1 hj2 => h j (by omega) (by omega))
      · simp only [Bool.not_eq_true] at hr
        simp [hr]

theorem roundTripLoop_skip (a : Nat → AttemptOutcome) (i rem : Nat)
    (h : a i = .tripErr Err.clientConnClosed) :
    roundTripLoop a i (rem + 1) = roundTripLoop a (i + 1) rem := by
  simp [roundTripLoop, h, shouldRetryRequest]

/-- Claim C8: `RoundTrip` makes at most 3 attempts (its result depends
only on attempts 0, 1, 2); an attempt is retried exactly when it fails
with `errClientConnClosed`, which `clientConn.do` returns exactly when
the selected connection's `closed` flag is set at placement time; a
selection error or any other execution error is surfaced immediately;
and three `conn-closed` failures yield the max-retry error. -/
theorem roundTrip_retry_policy :
    (∀ (closed : Bool) (werr : Option Nat) (res : Nat),
        ccDo closed werr res = .error Err.clientConnClosed ↔ closed = true) ∧
    (∀ a : Nat → AttemptOutcome,
        (∀ i, i < 3 → a i = .tripErr Err.clientConnClosed) →
        RoundTrip a = .error Err.maxRetry) ∧
    (∀ a a' : Nat → AttemptOutcome,
        (∀ i, i < 3 → a i = a' i) → RoundTrip a = RoundTrip a') ∧
    (∀ (a : Nat → AttemptOutcome) (k : Nat), k < 3 →
        (∀ i, i < k → a i = .tripErr Err.clientConnClosed) →
        (∀ e, a k = .connErr e → RoundTrip a = .error e) ∧
        (∀ e, a k = .tripErr e → e ≠ Err.clientConnClosed →
            RoundTrip a = .error e) ∧
        (∀ r, a k = .ok r → RoundTrip a = .ok r)) := by
  have hskip : ∀ (a : Nat → AttemptOutcome) (k : Nat), k < 3 →
      (∀ i, i < k → a i = .tripErr Err.clientConnClosed) →
      RoundTrip a = roundTripLoop a k (3 - k) := by
    intro a k hk hprev
    interval_cases k
    · rfl
    · have h0 := hprev 0 (by omega)
      unfold RoundTrip
      rw [show (3 : Nat) = 2 + 1 from rfl, roundTripLoop_skip a 0 2 h0]
    · have h0 := hprev 0 (by omega)
      have h1 := hprev 1 (by omega)
      unfold RoundTrip
      rw [show (3 : Nat) = 2 + 1 from rfl, roundTripLoop_skip a 0 2 h0,
        show (2 : Nat) = 1 + 1 from rfl, roundTripLoop_skip a 1 1 h1]
  refine ⟨?_, ?_, ?_, ?_⟩
  · intro closed werr res
    cases closed <;> cases werr <;> simp [ccDo]
  · intro a h
    have := hskip a 2 (by omega) (fun i hi => h i (by omega))
    rw [this, show (3 - 2 : Nat) = 0 + 1 from rfl,
      roundTripLoop_skip a 2 0 (h 2 (by omega))]
    rfl
  · intro a a' h
    exact roundTripLoop_congr a a' 3 0 (fun j hj1 hj2 => h j (by omega))
  · intro a k hk hprev
    have hs := hskip a k hk hprev
    have h31 : 3 - k = (2 - k) + 1 := by omega
    refine ⟨?_, ?_, ?_⟩
    · intro e he
      rw [hs, h31]
      simp [roundTripLoop, he]
    · intro e he hne
      rw [hs, h31]
      simp [roundTripLoop, he, shouldRetryRequest, hne]
    · intro r hr
      rw [hs, h31]
      simp [roundTripLoop, hr]

/-- Witness for `roundTrip_retry_policy`: a closed connection at
placement time yields the retryable `conn-closed` error; three
consecutive `conn-closed` attempts exhaust the loop; and a first
`conn-closed` attempt followed by a non-retryable I/O error surfaces
that error. -/
theorem roundTrip_retry_policy_witness :
    (ccDo true none 0 = .error Err.clientConnClosed) ∧
    (RoundTrip (fun _ => .tripErr Err.clientConnClosed) = .error Err.maxRetry) ∧
    (RoundTrip (fun i => if i = 0 then .tripErr Err.clientConnClosed
        else .tripErr (.ioErr 3)) = .error (.ioErr 3)) :=
  ⟨(roundTrip_retry_policy.1 true none 0).mpr rfl,
   roundTrip_retry_policy.2.1 (fun _ => .tripErr Err.clientConnClosed)
     (fun i _ => rfl),
   (roundTrip_retry_policy.2.2.2
       (fun i => if i = 0 then .tripErr Err.clientConnClosed
         else .tripErr (.ioErr 3)) 1 (by omega)
       (fun i hi => by interval_cases i; rfl)).2.1
     (.ioErr 3) rfl (by decide)⟩

theorem foldl_writeHeader_values (low : String) (vv : List String) :
    ∀ acc : List (String × String),
      vv.foldl (fun b2 v => writeHeader b2 low v) acc
        = acc ++ vv.map (fun v => (low, v)) := by
  induction vv with
  | nil => intro acc; simp
  | cons v t ih =>
    intro acc
    rw [List.foldl_cons, ih]
    simp [writeHeader]

theorem foldl_writeHeader_entries (entries : List (String × List String)) :
    ∀ acc : List (String × String),
      entries.foldl
        (fun b kv => if kv.1.toLower = "host" then b
          else kv.2.foldl (fun b2 v => writeHeader b2 kv.1.toLower v) b) acc
        = acc ++ entries.flatMap
            (fun kv => if kv.1.toLower = "host" then []
              else kv.2.map (fun v => (kv.1.toLower, v))) := by
  induction entries with
  | nil => intro acc; simp
  | cons kv t ih =>
    intro acc
    rw [List.foldl_cons, ih, List.flatMap_cons]
    by_cases hk : kv.1.toLower = "host"
    · simp [hk]
    · simp [hk, foldl_writeHeader_values]

/-- Claim C7: `encodeHeaders` emits exactly the four pseudo-headers
`:authority` (the request's explicit host if non-empty, else the URL
host), `:method`, `:path` (the raw request-URI if non-empty, else "/"),
`:scheme`, in that fixed order, followed by one field per value of each
remaining header key, with the key lowercased, values in their original
order, and every key that lowercases to "host" dropped; in particular no
emitted non-pseudo field is named "host". -/
theorem encodeHeaders_spec (req : Request) :
    (encodeHeaders req =
      [(":authority", if req.host = "" then req.urlHost else req.host),
       (":method", req.method),
       (":path", if req.requestURI = "" then "/" else req.requestURI),
       (":scheme", req.urlScheme)]
      ++ req.header.flatMap
          (fun kv => if kv.1.toLower = "host" then []
            else kv.2.map (fun v => (kv.1.toLower, v)))) ∧
    (∀ pr ∈ (encodeHeaders req).drop 4,
      pr.1 ≠ "host" ∧
      ∃ kv, kv ∈ req.header ∧ kv.1.toLower ≠ "host" ∧
        pr.1 = kv.1.toLower ∧ pr.2 ∈ kv.2) := by
  have hmain : encodeHeaders req =
      [(":authority", if req.host = "" then req.urlHost else req.host),
       (":method", req.method),
       (":path", if req.requestURI = "" then "/" else req.requestURI),
       (":scheme", req.urlScheme)]
      ++ req.header.flatMap
          (fun kv => if kv.1.toLower = "host" then []
            else kv.2.map (fun v => (kv.1.toLower, v))) := by
    simp only [encodeHeaders]
    rw [foldl_writeHeader_entries]
    simp [writeHeader]
  refine ⟨hmain, ?_⟩
  intro pr hpr
  rw [hmain] at hpr
  have hpr' : pr ∈ req.header.flatMap
      (fun kv => if kv.1.toLower = "host" then []
        else kv.2.map (fun v => (kv.1.toLower, v))) := by
    simpa using hpr
  rw [List.mem_flatMap] at hpr'
  obtain ⟨kv, hkv, hin⟩ := hpr'
  by_cases hk : kv.1.toLower = "host"
  · simp [hk] at hin
  · simp only [hk, if_false, List.mem_map] at hin
    obtain ⟨v, hv, rfl⟩ := hin
    exact ⟨hk, kv, hkv, hk, rfl, hv⟩

theorem whf_nil (sid mfs : Nat) (hb : Bool) (fuel : Nat) (first : Bool) :
    writeHeaderFrames sid mfs hb fuel first [] = [] := by
  cases fuel <;> rfl

theorem whf_cons (sid mfs : Nat) (hb : Bool) (fuel : Nat) (first : Bool)
    (h : Nat) (t : List Nat) :
    writeHeaderFrames sid mfs hb (fuel + 1) first (h :: t)
      = (if first then
          Frame.headers sid ((h :: t).take mfs) (!hb)
            (decide ((h :: t).drop mfs = []))
         else
          Frame.continuation sid ((h :: t).take mfs)
            (decide ((h :: t).drop mfs = [])))
        :: writeHeaderFrames sid mfs hb fuel false ((h :: t).drop mfs) := rfl

theorem whf_ne_nil (sid mfs : Nat) (hb : Bool) (fuel : Nat) (first : Bool)
    (hdrs : List Nat) (hne : hdrs ≠ []) (hlen : hdrs.length ≤ fuel) :
    writeHeaderFrames sid mfs hb fuel first hdrs ≠ [] := by
  cases hdrs with
  | nil => exact absurd rfl hne
  | cons h t =>
    cases fuel with
    | zero => simp at hlen
    | succ n => rw [whf_cons]; exact List.cons_ne_nil _ _

theorem frag_ite (first : Bool) (sid : Nat) (c : List Nat) (es eh : Bool) :
    Frame.frag (if first then Frame.headers sid c es eh
      else Frame.continuation sid c eh) = c := by
  cases first <;> rfl

theorem ehFlag_ite (first : Bool) (sid : Nat) (c : List Nat) (es eh : Bool) :
    Frame.endHeadersFlag (if first then Frame.headers sid c es eh
      else Frame.continuation sid c eh) = eh := by
  cases first <;> rfl

theorem whf_flatMap (sid mfs : Nat) (hb : Bool) (hmfs : 0 < mfs) :
    ∀ (fuel : Nat) (hdrs : List Nat) (first : Bool), hdrs.length ≤ fuel →
      (writeHeaderFrames sid mfs hb fuel first hdrs).flatMap Frame.frag = hdrs := by
  intro fuel
  induction fuel with
  | zero =>
    intro hdrs first hlen
    have h0 : hdrs = [] := List.eq_nil_of_length_eq_zero (Nat.le_zero.mp hlen)
    subst h0; rfl
  | succ n ih =>
    intro hdrs first hlen
    cases hdrs with
    | nil => rfl
    | cons h t =>
      have hlen' : ((h :: t).drop mfs).length ≤ n := by
        simp only [List.length_drop, List.length_cons]
        simp only [List.length_cons] at hlen
        omega
      rw [whf_cons, List.flatMap_cons, frag_ite,
        ih ((h :: t).drop mfs) false hlen']
      exact List.take_append_drop mfs (h :: t)

theorem whf_chunk_le (sid mfs : Nat) (hb : Bool) :
    ∀ (fuel : Nat) (hdrs : List Nat) (first : Bool),
      ∀ f ∈ writeHeaderFrames sid mfs hb fuel first hdrs,
        (Frame.frag f).length ≤ mfs := by
  intro fuel
  induction fuel with
  | zero =>
    intro hdrs first f hf
    cases hdrs with
    | nil => simp [whf_nil] at hf
    | cons h t => simp [writeHeaderFrames] at hf
  | succ n ih =>
    intro hdrs first f hf
    cases hdrs with
    | nil => simp [whf_nil] at hf
    | cons h t =>
      rw [whf_cons] at hf
      rcases List.mem_cons.mp hf with hhead | htail
      · subst hhead
        rw [frag_ite, List.length_take]
        exact min_le_left _ _
      · exact ih ((h :: t).drop mfs) false f htail

theorem whf_false_cont (sid mfs : Nat) (hb : Bool) :
    ∀ (fuel : Nat) (hdrs : List Nat),
      ∀ f ∈ writeHeaderFrames sid mfs hb fuel false hdrs,
        ∃ fr eh, f = Frame.continuation sid fr eh := by
  intro fuel
  induction fuel with
  | zero =>
    intro hdrs f hf
    cases hdrs with
    | nil => simp [whf_nil] at hf
    | cons h t => simp [writeHeaderFrames] at hf
  | succ n ih =>
    intro hdrs f hf
    cases hdrs with
    | nil => simp [whf_nil] at hf
    | cons h t =>
      rw [whf_cons] at hf
      rcases List.mem_cons.mp hf with hhead | htail
      · subst hhead
        exact ⟨_, _, rfl⟩
      · exact ih ((h :: t).drop mfs) f htail

theorem whf_flags (sid mfs : Nat) (hb : Bool) (hmfs : 0 < mfs) :
    ∀ (fuel : Nat) (hdrs : List Nat) (first : Bool),
      hdrs ≠ [] → hdrs.length ≤ fuel →
      ((writeHeaderFrames sid mfs hb fuel first hdrs).getLast?.map
          Frame.endHeadersFlag = some true) ∧
      (∀ f ∈ (writeHeaderFrames sid mfs hb fuel first hdrs).dropLast,
          Frame.endHeadersFlag f = false) := by
  intro fuel
  induction fuel with
  | zero =>
    intro hdrs first hne hlen
    have h0 : hdrs = [] := List.eq_nil_of_length_eq_zero (Nat.le_zero.mp hlen)
    exact absurd h0 hne
  | succ n ih =>
    intro hdrs first hne hlen
    cases hdrs with
    | nil => exact absurd rfl hne
    | cons h t =>
      rw [whf_cons]
      by_cases hdone : (h :: t).drop mfs = []
      · rw [hdone, whf_nil]
        constructor
        · simp [ehFlag_ite]
        · intro f hf
          simp at hf
      · have hlen' : ((h :: t).drop mfs).length ≤ n := by
          simp only [List.length_drop, List.length_cons]
          simp only [List.length_cons] at hlen
          omega
        have hrest := ih ((h :: t).drop mfs) false hdone hlen'
        have hrest_ne : writeHeaderFrames sid mfs hb n false ((h :: t).drop mfs) ≠ [] :=
          whf_ne_nil sid mfs hb n false _ hdone hlen'
        obtain ⟨r, rs, hr⟩ := List.exists_cons_of_ne_nil hrest_ne
        constructor
        · rw [hr, List.getLast?_cons_cons]
          rw [hr] at hrest
          exact hrest.1
        · rw [List.dropLast_cons_of_ne_nil hrest_ne]
          intro f hf
          rcases List.mem_cons.mp hf with hhead | htail
          · subst hhead
            simp [ehFlag_ite, hdone]
          · exact hrest.2 f htail

/-- Claim C6: the executor fragments an encoded header block into
chunks of at most `maxFrameSize` bytes whose concatenation is the
block; the first is a HEADERS frame with `END_STREAM = !hasBody` (where
`hasBody = ContentLength > 0 ∨ method = CONNECT`) and END_HEADERS set
exactly when nothing remains after it (equivalently: it is the only
fragment); every later fragment is a CONTINUATION, the last one (and
only it) carrying END_HEADERS; a block of exactly `maxFrameSize` bytes
yields a single HEADERS frame with END_HEADERS, and a block of
`maxFrameSize + 1` bytes yields HEADERS plus one CONTINUATION. -/
theorem do_fragmentHeaders_spec (req : Request) (sid mfs : Nat)
    (hdrs : List Nat) (hmfs : 0 < mfs) (hne : hdrs ≠ []) :
    ((doWriteHeaders sid mfs (hasBodyOf req) hdrs).flatMap Frame.frag = hdrs) ∧
    (∀ f ∈ doWriteHeaders sid mfs (hasBodyOf req) hdrs,
        (Frame.frag f).length ≤ mfs) ∧
    ((doWriteHeaders sid mfs (hasBodyOf req) hdrs).head?
        = some (.headers sid (hdrs.take mfs) (!hasBodyOf req)
            (decide (hdrs.drop mfs = [])))) ∧
    ((doWriteHeaders sid mfs (hasBodyOf req) hdrs).length = 1 ↔
        hdrs.length ≤ mfs) ∧
    (∀ f ∈ (doWriteHeaders sid mfs (hasBodyOf req) hdrs).tail,
        ∃ fr eh, f = Frame.continuation sid fr eh) ∧
    ((doWriteHeaders sid mfs (hasBodyOf req) hdrs).getLast?.map
        Frame.endHeadersFlag = some true) ∧
    (∀ f ∈ (doWriteHeaders sid mfs (hasBodyOf req) hdrs).dropLast,
        Frame.endHeadersFlag f = false) ∧
    (hdrs.length = mfs →
        doWriteHeaders sid mfs (hasBodyOf req) hdrs
          = [.headers sid hdrs (!hasBodyOf req) true]) ∧
    (hdrs.length = mfs + 1 →
        doWriteHeaders sid mfs (hasBodyOf req) hdrs
          = [.headers sid (hdrs.take mfs) (!hasBodyOf req) false,
             .continuation sid (hdrs.drop mfs) true]) := by
  obtain ⟨h, t, rfl⟩ := List.exists_cons_of_ne_nil hne
  have hfuel : (h :: t).length = t.length + 1 := rfl
  refine ⟨?_, ?_, ?_, ?_, ?_, ?_, ?_, ?_, ?_⟩
  · exact whf_flatMap sid mfs (hasBodyOf req) hmfs _ _ true le_rfl
  · intro f hf
    exact whf_chunk_le sid mfs (hasBodyOf req) _ _ true f hf
  · rw [doWriteHeaders, hfuel, whf_cons]
    simp
  · rw [doWriteHeaders, hfuel, whf_cons]
    simp only [List.length_cons]
    constructor
    · intro hone
      by_contra hgt
      have hdrop : (h :: t).drop mfs ≠ [] := by
        simp only [ne_eq, List.drop_eq_nil_iff, List.length_cons]
        exact hgt
      have hne2 : writeHeaderFrames sid mfs (hasBodyOf req) t.length false
          ((h :: t).drop mfs) ≠ [] := by
        apply whf_ne_nil sid mfs (hasBodyOf req) t.length false _ hdrop
        simp only [List.length_drop, List.length_cons]
        omega
      have hz : (writeHeaderFrames sid mfs (hasBodyOf req) t.length false
          ((h :: t).drop mfs)).length = 0 := by omega
      exact hne2 (List.eq_nil_of_length_eq_zero hz)
    · intro hle
      have hdrop : (h :: t).drop mfs = [] := by
        simp only [List.drop_eq_nil_iff, List.length_cons]
        exact hle
      rw [hdrop, whf_nil]
      rfl
  · rw [doWriteHeaders, hfuel, whf_cons]
    intro f hf
    simp only [List.tail_cons] at hf
    exact whf_false_cont sid mfs (hasBodyOf req) _ _ f hf
  · exact (whf_flags sid mfs (hasBodyOf req) hmfs _ _ true hne le_rfl).1
  · exact (whf_flags sid mfs (hasBodyOf req) hmfs _ _ true hne le_rfl).2
  · intro heq
    have hdrop : (h :: t).drop mfs = [] := by
      simp only [List.drop_eq_nil_iff]
      omega
    have htake : (h :: t).take mfs = h :: t :=
      List.take_of_length_le (le_of_eq heq)
    rw [doWriteHeaders, hfuel, whf_cons, hdrop, whf_nil, htake]
    simp [hdrop]
  · intro heq
    have hdrop_ne : (h :: t).drop mfs ≠ [] := by
      simp only [ne_eq, List.drop_eq_nil_iff]
      omega
    have hdlen : ((h :: t).drop mfs).length = 1 := by
      simp only [List.length_drop]
      omega
    obtain ⟨d, hd⟩ : ∃ d, (h :: t).drop mfs = [d] := by
      cases hdd : (h :: t).drop mfs with
      | nil => exact absurd hdd hdrop_ne
      | cons d ds =>
        rw [hdd] at hdlen
        simp only [List.length_cons] at hdlen
        have : ds = [] := List.eq_nil_of_length_eq_zero (by omega)
        exact ⟨d, by rw [this]⟩
    have ht1 : t.length = (t.length - 1) + 1 := by
      simp only [List.length_cons] at heq
      omega
    rw [doWriteHeaders, hfuel, whf_cons, hd, ht1, whf_cons]
    have htake1 : [d].take mfs = [d] :=
      List.take_of_length_le (by simpa using hmfs)
    have hdrop1 : [d].drop mfs = [] := by
      simp only [List.drop_eq_nil_iff]
      simpa using hmfs
    rw [htake1, hdrop1, whf_nil]
    simp

/-- Witness for `do_fragmentHeaders_spec`: with `maxFrameSize = 2`, a
2-byte block yields one HEADERS frame with END_HEADERS, and a 3-byte
block yields HEADERS plus one CONTINUATION. -/
theorem do_fragmentHeaders_spec_witness :
    doWriteHeaders 1 2 (hasBodyOf ⟨"GET", "", "h", "https", "/", 0, []⟩) [1, 2]
      = [.headers 1 [1, 2] (!hasBodyOf ⟨"GET", "", "h", "https", "/", 0, []⟩) true] ∧
    doWriteHeaders 1 2 (hasBodyOf ⟨"GET", "", "h", "https", "/", 0, []⟩) [1, 2, 3]
      = [.headers 1 [1, 2] (!hasBodyOf ⟨"GET", "", "h", "https", "/", 0, []⟩) false,
         .continuation 1 [3] true] :=
  ⟨(do_fragmentHeaders_spec ⟨"GET", "", "h", "https", "/", 0, []⟩ 1 2 [1, 2]
      (by decide) (by decide)).2.2.2.2.2.2.2.1 rfl,
   (do_fragmentHeaders_spec ⟨"GET", "", "h", "https", "/", 0, []⟩ 1 2 [1, 2, 3]
      (by decide) (by decide)).2.2.2.2.2.2.2.2 rfl⟩

theorem stickyWrite_latched (s : ConnW) (e : Err) (hw : s.werr = some e)
    (p : List Nat) : stickyWrite s p = ((0, some e), s) := by
  simp [stickyWrite, hw]

theorem bwWriteLoop_err (s : ConnW) (e : Err) (hb : s.bwErr = some e)
    (fuel : Nat) (p : List Nat) (nn : Nat) :
    bwWriteLoop fuel s p nn = ((nn, some e), s) := by
  cases fuel with
  | zero => simp [bwWriteLoop, hb]
  | succ n => simp [bwWriteLoop, hb]

theorem bwWrite_err (s : ConnW) (e : Err) (hb : s.bwErr = some e)
    (p : List Nat) : bwWrite s p = ((0, some e), s) :=
  bwWriteLoop_err s e hb _ p 0

theorem bwFlush_err (s : ConnW) (e : Err) (hb : s.bwErr = some e) :
    bwFlush s = (some e, s) := by
  simp [bwFlush, hb]

theorem bwWriteLoop_err_result :
    ∀ (fuel : Nat) (s : ConnW) (p : List Nat) (nn : Nat) (e : Err),
      (bwWriteLoop fuel s p nn).1.2 = some e →
      (bwWriteLoop fuel s p nn).2.bwErr = some e := by
  intro fuel
  induction fuel with
  | zero =>
    intro s p nn e h
    cases hb : s.bwErr with
    | some e2 =>
      simp [bwWriteLoop, hb] at h ⊢
      exact h
    | none => simp [bwWriteLoop, hb] at h
  | succ n ih =>
    intro s p nn e h
    by_cases hcond : p.length > bufSize - s.bwBuf.length ∧ s.bwErr = none
    · by_cases hbuf : s.bwBuf.length = 0
      · simp only [bwWriteLoop, if_pos hcond, if_pos hbuf] at h ⊢
        exact ih _ _ _ _ h
      · simp only [bwWriteLoop, if_pos hcond, if_neg hbuf] at h ⊢
        exact ih _ _ _ _ h
    · cases hb : s.bwErr with
      | some e2 =>
        simp [bwWriteLoop, hcond, hb] at h ⊢
        exact h
      | none =>
        have hlt : ¬ p.length > bufSize - s.bwBuf.length :=
          fun hl => hcond ⟨hl, hb⟩
        simp [bwWriteLoop, hb, hlt] at h

theorem bwWrite_err_result (s : ConnW) (p : List Nat) (e : Err)
    (h : (bwWrite s p).1.2 = some e) : (bwWrite s p).2.bwErr = some e :=
  bwWriteLoop_err_result _ s p 0 e h

theorem bwFlush_err_result (s : ConnW) (e : Err)
    (h : (bwFlush s).1 = some e) : (bwFlush s).2.bwErr = some e := by
  cases hb : s.bwErr with
  | some e2 =>
    simp [bwFlush, hb] at h ⊢
    exact h
  | none =>
    by_cases hbuf : s.bwBuf = []
    · simp [bwFlush, hb, hbuf] at h
    · rcases hsw : stickyWrite s s.bwBuf with ⟨⟨n2, err⟩, s2⟩
      cases err with
      | some e2 =>
        simp [bwFlush, hb, hbuf, hsw] at h ⊢
        exact h
      | none => simp [bwFlush, hb, hbuf, hsw] at h

theorem winv_buf (s : ConnW) (h : WInv s) (b : List Nat) :
    WInv { s with bwBuf := b } := by
  simpa [WInv] using h

theorem sticky_then_latch_inv (s : ConnW) (p : List Nat) (hw : s.werr = none) :
    WInv { (stickyWrite s p).2 with bwErr := (stickyWrite s p).1.2 } := by
  cases horc : s.oracle with
  | nil => simp [stickyWrite, hw, horc, WInv]
  | cons r rest =>
    cases r with
    | none => simp [stickyWrite, hw, horc, WInv]
    | some e => simp [stickyWrite, hw, horc, WInv]

theorem winv_werr_none (s : ConnW) (h : WInv s) (hb : s.bwErr = none) :
    s.werr = none := by
  by_contra hw
  have := h hw
  rw [hb] at this
  exact hw this.symm

theorem bwFlush_inv (s : ConnW) (h : WInv s) : WInv (bwFlush s).2 := by
  cases hb : s.bwErr with
  | some e => simpa [bwFlush, hb] using h
  | none =>
    by_cases hbuf : s.bwBuf = []
    · simpa [bwFlush, hb, hbuf] using h
    · have hw : s.werr = none := winv_werr_none s h hb
      cases horc : s.oracle with
      | nil => simp [bwFlush, hb, hbuf, stickyWrite, hw, horc, WInv]
      | cons r rest =>
        cases r with
        | none => simp [bwFlush, hb, hbuf, stickyWrite, hw, horc, WInv]
        | some e => simp [bwFlush, hb, hbuf, stickyWrite, hw, horc, WInv]

theorem bwWriteLoop_inv :
    ∀ (fuel : Nat) (s : ConnW) (p : List Nat) (nn : Nat), WInv s →
      WInv (bwWriteLoop fuel s p nn).2 := by
  intro fuel
  induction fuel with
  | zero =>
    intro s p nn h
    cases hb : s.bwErr with
    | some e => simpa [bwWriteLoop, hb] using h
    | none =>
      have := winv_buf s h (s.bwBuf ++ p)
      simpa [bwWriteLoop, hb] using this
  | succ n ih =>
    intro s p nn h
    by_cases hcond : p.length > bufSize - s.bwBuf.length ∧ s.bwErr = none
    · by_cases hbuf : s.bwBuf.length = 0
      · have hw : s.werr = none := winv_werr_none s h hcond.2
        simp only [bwWriteLoop, if_pos hcond, if_pos hbuf]
        exact ih _ _ _ (sticky_then_latch_inv s p hw)
      · simp only [bwWriteLoop, if_pos hcond, if_neg hbuf]
        exact ih _ _ _ (bwFlush_inv _ (winv_buf s h _))
    · cases hb : s.bwErr with
      | some e => simpa [bwWriteLoop, hcond, hb] using h
      | none =>
        have hlt : ¬ p.length > bufSize - s.bwBuf.length :=
          fun hl => hcond ⟨hl, hb⟩
        have := winv_buf s h (s.bwBuf ++ p)
        simpa [bwWriteLoop, hb, hlt] using this

theorem bwWrite_inv (s : ConnW) (p : List Nat) (h : WInv s) :
    WInv (bwWrite s p).2 :=
  bwWriteLoop_inv (2 * p.length + 2) s p 0 h

theorem framerWrite_inv (s : ConnW) (b : List Nat) (h : WInv s) :
    WInv (framerWrite s b).2 := by
  rcases hbw : bwWrite s b with ⟨⟨n2, err⟩, s2⟩
  have h2 := bwWrite_inv s b h
  rw [hbw] at h2
  simp [framerWrite, hbw]
  exact h2

theorem framerWrite_err_result (s : ConnW) (b : List Nat) (e : Err)
    (h : (framerWrite s b).1 = some e) : (framerWrite s b).2.bwErr = some e := by
  rcases hbw : bwWrite s b with ⟨⟨n2, err⟩, s2⟩
  have h2 := bwWrite_err_result s b e
  rw [hbw] at h2
  simp [framerWrite, hbw] at h ⊢
  exact h2 (by rw [h])

theorem opStep_inv (s : ConnW) (op : WOp) (h : WInv s) :
    WInv (opStep s op).2 := by
  cases op with
  | rawWrite p =>
    rcases hbw : bwWrite s p with ⟨⟨n2, err⟩, s2⟩
    have h2 := bwWrite_inv s p h
    rw [hbw] at h2
    simpa [opStep, hbw] using h2
  | flushOp => exact bwFlush_inv s h
  | dataWrite sid es p =>
    rcases hfw : framerWrite s (dataFrameBytes sid es p) with ⟨err, s1⟩
    have hinv1 : WInv s1 := by
      have := framerWrite_inv s (dataFrameBytes sid es p) h
      rw [hfw] at this; exact this
    cases err with
    | some e =>
      have hb1 : s1.bwErr = some e := by
        have := framerWrite_err_result s (dataFrameBytes sid es p) e (by rw [hfw])
        rw [hfw] at this; exact this
      simp [opStep, hfw, WInv, hb1]
    | none =>
      cases es with
      | false => simpa [opStep, hfw] using hinv1
      | true =>
        rcases hfl : bwFlush s1 with ⟨ferr, s2⟩
        have hinv2 : WInv s2 := by
          have := bwFlush_inv s1 hinv1
          rw [hfl] at this; exact this
        cases ferr with
        | some e =>
          have hb2 : s2.bwErr = some e := by
            have := bwFlush_err_result s1 e (by rw [hfl])
            rw [hfl] at this; exact this
          simp [opStep, hfw, hfl, WInv, hb2]
        | none => simpa [opStep, hfw, hfl] using hinv2
  | tunnelWrite sid p =>
    rcases hfw : framerWrite s (dataFrameBytes sid false p) with ⟨err, s1⟩
    have hinv1 : WInv s1 := by
      have := framerWrite_inv s (dataFrameBytes sid false p) h
      rw [hfw] at this; exact this
    cases err with
    | some e =>
      have hb1 : s1.bwErr = some e := by
        have := framerWrite_err_result s (dataFrameBytes sid false p) e (by rw [hfw])
        rw [hfw] at this; exact this
      simp [opStep, hfw, WInv, hb1]
    | none =>
      rcases hfl : bwFlush s1 with ⟨ferr, s2⟩
      have hinv2 : WInv s2 := by
        have := bwFlush_inv s1 hinv1
        rw [hfl] at this; exact this
      cases ferr with
      | some e =>
        have hb2 : s2.bwErr = some e := by
          have := bwFlush_err_result s1 e (by rw [hfl])
          rw [hfl] at this; exact this
        simp [opStep, hfw, hfl, WInv, hb2]
      | none => simpa [opStep, hfw, hfl] using hinv2
  | tunnelClose sid =>
    rcases hfw : framerWrite s (rstStreamBytes sid 5) with ⟨err, s1⟩
    cases err with
    | some e =>
      have hb1 : s1.bwErr = some e := by
        have := framerWrite_err_result s (rstStreamBytes sid 5) e (by rw [hfw])
        rw [hfw] at this; exact this
      simp [opStep, hfw, WInv, hb1]
    | none => simp [opStep, hfw, WInv]

theorem set_werr_self (s : ConnW) (e : Err) (hw : s.werr = some e) :
    ({ s with werr := some e } : ConnW) = s := by
  obtain ⟨w, be, bb, sock, orc⟩ := s
  simp only at hw
  rw [hw]

theorem opStep_latched (s : ConnW) (e : Err) (hinv : WInv s)
    (hw : s.werr = some e) (op : WOp) :
    (opStep s op).1 = some e ∧ (opStep s op).2 = s := by
  have hb : s.bwErr = some e := by
    have := hinv (by simp [hw])
    rw [hw] at this
    exact this
  have hset := set_werr_self s e hw
  cases op with
  | rawWrite p => simp [opStep, bwWrite_err s e hb p]
  | flushOp => simp [opStep, bwFlush_err s e hb]
  | dataWrite sid es p =>
    have hfw : framerWrite s (dataFrameBytes sid es p) = (some e, s) := by
      simp [framerWrite, bwWrite_err s e hb]
    simp [opStep, hfw, hset]
  | tunnelWrite sid p =>
    have hfw : framerWrite s (dataFrameBytes sid false p) = (some e, s) := by
      simp [framerWrite, bwWrite_err s e hb]
    simp [opStep, hfw, hset]
  | tunnelClose sid =>
    have hfw : framerWrite s (rstStreamBytes sid 5) = (some e, s) := by
      simp [framerWrite, bwWrite_err s e hb]
    simp [opStep, hfw, hset]

/-- Claim C5: once a write on the connection has failed — so the sticky
error `cc.werr` holds some error `e` (and, by the writer-stack
invariant, the bufio layer has latched the same error) — the sticky
writer fails every subsequent write with `(0, e)` without touching the
state, every connection-level write operation (raw write, flush, DATA
write, tunnel write, tunnel close) reports `e` and leaves the state —
in particular the socket byte stream, the unconsumed I/O script, and
the latched `werr` itself — completely unchanged, and any sequence of
further operations leaves the state unchanged; so no further bytes
reach the socket and the latched error is never reset (not even by
`clientDataConn.Close`, which reassigns `cc.werr` unconditionally). -/
theorem stickyErrWriter_sticky (s : ConnW) (e : Err) (hinv : WInv s)
    (hw : s.werr = some e) :
    (∀ p, stickyWrite s p = ((0, some e), s)) ∧
    (∀ op, (opStep s op).1 = some e ∧ (opStep s op).2 = s) ∧
    (∀ ops, runOps s ops = s) := by
  refine ⟨fun p => stickyWrite_latched s e hw p,
    fun op => opStep_latched s e hinv hw op, ?_⟩
  intro ops
  induction ops with
  | nil => rfl
  | cons op t ih =>
    simp only [runOps]
    rw [(opStep_latched s e hinv hw op).2]
    exact ih

/-- Witness for `stickyErrWriter_sticky`: the state reached by writing
one byte and flushing against a socket scripted to fail with I/O error
7 has `werr = bwErr = some (ioErr 7)`; in it the sticky writer rejects
any write and `clientDataConn.Close` neither writes to the socket nor
resets the latched error. -/
theorem stickyErrWriter_sticky_witness :
    stickyWrite ⟨some (.ioErr 7), some (.ioErr 7), [5], [9], []⟩ [1, 2]
      = ((0, some (.ioErr 7)), ⟨some (.ioErr 7), some (.ioErr 7), [5], [9], []⟩) ∧
    (opStep ⟨some (.ioErr 7), some (.ioErr 7), [5], [9], []⟩ (.tunnelClose 1)).1
      = some (.ioErr 7) ∧
    (opStep ⟨some (.ioErr 7), some (.ioErr 7), [5], [9], []⟩ (.tunnelClose 1)).2
      = ⟨some (.ioErr 7), some (.ioErr 7), [5], [9], []⟩ :=
  have h := stickyErrWriter_sticky
    ⟨some (.ioErr 7), some (.ioErr 7), [5], [9], []⟩ (.ioErr 7) (by decide) rfl
  ⟨h.1 [1, 2], (h.2.1 (.tunnelClose 1)).1, (h.2.1 (.tunnelClose 1)).2⟩

theorem bwWrite_fits (s : ConnW) (p : List Nat) (hb : s.bwErr = none)
    (hfit : ¬ p.length > bufSize - s.bwBuf.length) :
    bwWrite s p = ((p.length, none), { s with bwBuf := s.bwBuf ++ p }) := by
  have h22 : 2 * p.length + 2 = (2 * p.length + 1) + 1 := rfl
  rw [bwWrite, h22]
  simp [bwWriteLoop, hb, hfit]

theorem bwWrite_direct (s : ConnW) (p : List Nat) (hb : s.bwErr = none)
    (hw : s.werr = none) (hbuf : s.bwBuf = []) (horc : s.oracle = [])
    (hbig : p.length > bufSize) :
    bwWrite s p = ((p.length, none), { s with socket := s.socket ++ p }) := by
  obtain ⟨w, be, bb, sock, orc⟩ := s
  simp only at hb hw hbuf horc
  subst hb hw hbuf horc
  have h22 : 2 * p.length + 2 = (2 * p.length + 1) + 1 := rfl
  have h21 : 2 * p.length + 1 = (2 * p.length) + 1 := rfl
  rw [bwWrite, h22]
  simp only [bwWriteLoop]
  simp [stickyWrite, hbig, List.drop_length]

theorem bwFlush_success (s : ConnW) (hb : s.bwErr = none)
    (hw : s.werr = none) (horc : s.oracle = []) :
    bwFlush s = (none, { s with socket := s.socket ++ s.bwBuf, bwBuf := [] }) := by
  obtain ⟨w, be, bb, sock, orc⟩ := s
  simp only at hb hw horc
  subst hb hw horc
  by_cases hbb : bb = []
  · subst hbb
    simp [bwFlush]
  · simp [bwFlush, stickyWrite, hbb]

/-- Claim C10: for a request with a body but `ContentLength ≤ 0` (in
particular CONNECT with unset ContentLength), the DATA writer's
remaining-bytes counter starts at `ContentLength ≤ 0`, so its first
write of any chunk satisfies `len(chunk) ≥ remaining`, and on a healthy
connection the chunk is emitted as a single DATA frame with END_STREAM
set, flushed through to the socket, with the counter decremented —
half-closing the stream after the first body chunk. -/
theorem dataFrameWriter_halfClose (req : Request) (sock : List Nat)
    (sid : Nat) (p : List Nat) (hhb : hasBodyOf req = true)
    (hcl : req.contentLength ≤ 0) :
    ((p.length : Int) ≥ req.contentLength) ∧
    dataFrameWriterWrite ⟨none, none, [], sock, []⟩ req.contentLength sid p
      = ((p.length, none),
         ⟨none, none, [], sock ++ dataFrameBytes sid true p, []⟩,
         req.contentLength - p.length) := by
  have hge : (p.length : Int) ≥ req.contentLength :=
    le_trans hcl (Int.natCast_nonneg _)
  refine ⟨hge, ?_⟩
  have hes : decide ((p.length : Int) ≥ req.contentLength) = true :=
    decide_eq_true hge
  by_cases hfit : (dataFrameBytes sid true p).length > bufSize
  · have hdir := bwWrite_direct ⟨none, none, [], sock, []⟩
      (dataFrameBytes sid true p) rfl rfl rfl rfl hfit
    have hfw : framerWrite ⟨none, none, [], sock, []⟩ (dataFrameBytes sid true p)
        = (none, ⟨none, none, [], sock ++ dataFrameBytes sid true p, []⟩) := by
      simp [framerWrite, hdir]
    have hfl : bwFlush (⟨none, none, [], sock ++ dataFrameBytes sid true p, []⟩ : ConnW)
        = (none, ⟨none, none, [], sock ++ dataFrameBytes sid true p, []⟩) := by
      simp [bwFlush]
    simp [dataFrameWriterWrite, hes, hfw, hfl]
  · have hfits := bwWrite_fits ⟨none, none, [], sock, []⟩
      (dataFrameBytes sid true p) rfl (by simpa using hfit)
    have hfw : framerWrite ⟨none, none, [], sock, []⟩ (dataFrameBytes sid true p)
        = (none, ⟨none, none, dataFrameBytes sid true p, sock, []⟩) := by
      simp [framerWrite, hfits]
    have hfl : bwFlush (⟨none, none, dataFrameBytes sid true p, sock, []⟩ : ConnW)
        = (none, ⟨none, none, [], sock ++ dataFrameBytes sid true p, []⟩) := by
      have := bwFlush_success ⟨none, none, dataFrameBytes sid true p, sock, []⟩
        rfl rfl rfl
      simpa using this
    simp [dataFrameWriterWrite, hes, hfw, hfl]

/-- Witness for `dataFrameWriter_halfClose`: a CONNECT request with
ContentLength 0; the first two-byte chunk is sent as DATA with
END_STREAM and flushed to the socket, and the counter becomes −2. -/
theorem dataFrameWriter_halfClose_witness :
    (((2 : Nat) : Int) ≥ (⟨"CONNECT", "h:443", "h:443", "https", "", 0, []⟩ : Request).contentLength) ∧
    dataFrameWriterWrite ⟨none, none, [], [9], []⟩
        (⟨"CONNECT", "h:443", "h:443", "https", "", 0, []⟩ : Request).contentLength 3 [5, 6]
      = ((2, none),
         ⟨none, none, [], [9] ++ dataFrameBytes 3 true [5, 6], []⟩,
         (⟨"CONNECT", "h:443", "h:443", "https", "", 0, []⟩ : Request).contentLength - 2) :=
  dataFrameWriter_halfClose ⟨"CONNECT", "h:443", "h:443", "https", "", 0, []⟩
    [9] 3 [5, 6] (by decide) (by decide)

end Http2
